import Mathlib

/-!
Verification of the header building / parsing core of proton-bridge
(`pkg/message/header.go`).

Modelling conventions:

* Go strings are modelled as `List Char` (`Str`).  All bracket/containment
  operations of the source act on the ASCII characters `<`, `>`, so rune
  positions and byte positions coincide for every slice the code takes.
* The external collaborators (package `pmmime`'s `EncodeHeader`/`DecodeHeader`,
  `net/mail`'s `ParseAddressList`/`ParseDate`/`Address.String`, `mime`'s
  `FormatMediaType`, `time`'s RFC1123Z formatting) and the repository
  functions defined outside this file (`formatAddressList`,
  `parseAddressComment`) are abstracted as the fields of a `Collab` record.
* A Go `(value, error)` pair is modelled as `GoResult`; an operation that can
  panic (out-of-range slice) or diverge is wrapped in `Option`, `none`
  standing for a panic / missing result.
* `textproto.MIMEHeader` / `mail.Header` (a `map[string][]string`) is
  modelled as an association list `Hdr`; `Get`/`Set` canonicalise the key
  exactly as Go's `textproto.CanonicalMIMEHeaderKey` does.
* `textproto.MIMEHeader(msg.Header)` in `GetHeader` is a cast, not a copy:
  the built mapping shares storage with `msg.Header` whenever the latter is
  non-nil, and every `Set` mutates the shared map.  The state record
  `BState` threads both the built mapping and the contents observed through
  `msg.Header` (`msgHeader`), applying every `Set` to both when aliased.
-/

/-- Go strings, modelled as their list of characters. -/
abbrev Str := List Char

/-- Shorthand turning a Lean string literal into a `Str`. -/
def str (x : String) : Str := x.data

/-- Go `error` values that appear in this core: `mail.ErrHeaderNotPresent`
and opaque collaborator errors (decode / address-parse failures), carried
as an abstract tag. -/
inductive GoErr where
  | headerNotPresent : GoErr
  | custom : Str → GoErr
deriving DecidableEq

/-- A Go `(value, error)` return pair: exactly one of the two is meaningful. -/
inductive GoResult (α : Type) where
  | ok : α → GoResult α
  | err : GoErr → GoResult α
deriving DecidableEq

/-- A `mail.Address`: display name and address (mailbox) part. -/
structure Addr where
  name : Str
  address : Str
deriving DecidableEq

/-- A `time.Time` as far as this core observes it: its Unix seconds and
whether it `IsZero`. -/
structure GoTime where
  unixSec : Int
  isZero : Bool
deriving DecidableEq

/-- Association-list model of `map[string][]string`
(`textproto.MIMEHeader` / `mail.Header`).  Keys are stored verbatim;
`Get`/`Set` canonicalise their key argument. -/
abbrev Hdr := List (Str × List Str)

/-- The `pmapi.Message` fields read by this core. -/
structure Message where
  id : Str := []
  externalID : Str := []
  conversationID : Str := []
  subject : Str := []
  sender : Option Addr := none
  replyTos : List Addr := []
  toList : List Addr := []
  ccList : List Addr := []
  bccList : List Addr := []
  mimeType : Str := []
  time : Int := 0
  header : Option Hdr := none
deriving DecidableEq

/-- The `pmapi.Attachment` fields read by this core. -/
structure Attachment where
  mimeType : Str := []
  name : Str := []
  header : Hdr := []
deriving DecidableEq

/-- External collaborators and repository functions outside this file,
abstracted as parameters (the spec excludes them from the core):
RFC-2047 encode/decode, the RFC-5322 address-list parser, the
comment-stripping preprocessor `parseAddressComment`, address and
address-list formatting, `mail.ParseDate` (`none` = parse error),
RFC1123Z rendering of a Unix timestamp, and `mime.FormatMediaType`. -/
structure Collab where
  EncodeHeader : Str → Str
  DecodeHeader : Str → GoResult Str
  ParseAddressList : Str → GoResult (List Addr)
  parseAddressComment : Str → Str
  addressString : Addr → Str
  formatAddressList : List Addr → Str
  ParseDate : Str → Option GoTime
  FormatRFC1123Z : Int → Str
  FormatMediaType : Str → List (Str × Str) → Str

/-- Modelled from the spec: the constant `pmapi.InternalIDDomain` (the pmapi
package is not part of this core); a fixed domain suffix used to synthesize
message identifiers from internal IDs.  Its exact value is immaterial to
every claim below. -/
def InternalIDDomain : Str := str "protonmail.internalid"

/-- Modelled from the spec: the constant `pmapi.ConversationIDDomain`
(the pmapi package is not part of this core). -/
def ConversationIDDomain : Str := str "protonmail.conversationid"

/-- Go `textproto` token bytes (`validHeaderFieldByte`). -/
def validHeaderFieldChar (c : Char) : Bool :=
  c.toNat < 128 &&
    (c.isAlphanum || c = '!' || c = '#' || c = '$' || c = '%' || c = '&' ||
     c = Char.ofNat 39 || c = '*' || c = '+' || c = '-' || c = '.' ||
     c = '^' || c = '_' || c = Char.ofNat 96 || c = '|' || c = '~')

/-- The case-folding pass of `textproto.canonicalMIMEHeaderKey`: uppercase
after a hyphen or at the start, lowercase elsewhere. -/
def canonFold : Bool → Str → Str
  | _, [] => []
  | upper, c :: t =>
    let c' := if upper then c.toUpper else c.toLower
    c' :: canonFold (c' = '-') t

/-- Go `textproto.CanonicalMIMEHeaderKey`: keys containing a non-token byte
are returned unchanged, otherwise they are canonically case-folded. -/
def canonicalKey (k : Str) : Str :=
  if k.all validHeaderFieldChar then canonFold true k else k

/-- First binding of a key in the association list (Go map lookup). -/
def hLookup (k : Str) : Hdr → Option (List Str)
  | [] => none
  | (k', vs) :: t => if k' = k then some vs else hLookup k t

/-- Drop every binding of a key (used to model Go map update). -/
def hRemove (k : Str) : Hdr → Hdr
  | [] => []
  | (k', vs) :: t => if k' = k then hRemove k t else (k', vs) :: hRemove k t

/-- `MIMEHeader.Get`: canonicalise the key, return the first value, or the
empty string when the key is absent or has no values. -/
def hGet (h : Hdr) (k : Str) : Str :=
  match hLookup (canonicalKey k) h with
  | some (v :: _) => v
  | _ => []

/-- `MIMEHeader.Set`: canonicalise the key and replace all its values. -/
def hSet (k v : Str) (h : Hdr) : Hdr :=
  (canonicalKey k, [v]) :: hRemove (canonicalKey k) h

/-- Go `strings.Contains` on our string model. -/
def containsSubstr : Str → Str → Bool
  | _, [] => true
  | [], _ :: _ => false
  | a :: t, n => n.isPrefixOf (a :: t) || containsSubstr t n

/-- Number of positions at which `needle` occurs in `hay` (for stating
"contains exactly once / zero times"). -/
def countOccur : Str → Str → Nat
  | [], n => if n = [] then 1 else 0
  | a :: t, n => (if n.isPrefixOf (a :: t) then 1 else 0) + countOccur t n

/-- Index of the first occurrence of a character, as an `Option`. -/
def idxOf? : Str → Char → Option Nat
  | [], _ => none
  | a :: t, c => if a = c then some 0 else (idxOf? t c).map (· + 1)

/-- Index of the last occurrence of a character, as an `Option`. -/
def lastIdxOf? : Str → Char → Option Nat
  | [], _ => none
  | a :: t, c =>
    match lastIdxOf? t c with
    | some n => some (n + 1)
    | none => if a = c then some 0 else none

/-- Go `strings.Index` for a single character: `-1` when absent. -/
def goIndexChar (s : Str) (c : Char) : Int :=
  match idxOf? s c with
  | some n => (n : Int)
  | none => -1

/-- Go `strings.LastIndex` for a single character: `-1` when absent. -/
def goLastIndexChar (s : Str) (c : Char) : Int :=
  match lastIdxOf? s c with
  | some n => (n : Int)
  | none => -1

/-- Go slice `s[i:]`; `none` models the panic on an out-of-range index. -/
def sliceFrom (l : Str) (i : Int) : Option Str :=
  if 0 ≤ i ∧ i ≤ (l.length : Int) then some (l.drop i.toNat) else none

/-- Go slice `s[:i]`; `none` models the panic on an out-of-range index. -/
def sliceTo (l : Str) (i : Int) : Option Str :=
  if 0 ≤ i ∧ i ≤ (l.length : Int) then some (l.take i.toNat) else none

/-- Go `strings.Join(pieces, ", ")`. -/
def joinComma : List Str → Str
  | [] => []
  | [p] => p
  | p :: q :: t => p ++ str ", " ++ joinComma (q :: t)

/-- The bracket-extraction loop of `sanitizeAddressList`
(`header.go:202-210`), transcribed iteration by iteration.  `fuel` bounds
the number of iterations (the harvest theorem shows `length + 1` always
suffices); `none` models a panic (out-of-range slice) or fuel exhaustion. -/
def bracketLoop : Nat → Str → Int → Int → List Str → Option (List Str)
  | 0, _, _, _, _ => none
  | fuel + 1, s0, opn, lst, acc =>
    if opn < lst ∧ 0 ≤ opn then
      match sliceFrom s0 opn with
      | none => none
      | some s1 =>
        match sliceTo s1 (goIndexChar s1 '>' + 1), sliceFrom s1 (goIndexChar s1 '>') with
        | some piece, some s2 =>
          bracketLoop fuel s2 (goIndexChar s2 '<') (goLastIndexChar s2 '>') (acc ++ [piece])
        | _, _ => none
    else some acc

/-- `sanitizeAddressList` (`header.go:176-214`).  The result is the Go
`(addrs, err)` pair; the surrounding `Option` models the possibility of a
panic inside the fallback loop (`none`), which the totality theorem rules
out.  Note the source normalises a `nil` success to an empty slice
(`header.go:189-191`); our list model cannot distinguish the two, so the
branch is the identity here. -/
def sanitizeAddressList (C : Collab) (h : Hdr) (field : Str) :
    Option (GoResult (List Addr)) :=
  let raw := hGet h field
  if raw = [] then some (GoResult.err GoErr.headerNotPresent)
  else
    match C.DecodeHeader raw with
    | GoResult.err e => some (GoResult.err e)
    | GoResult.ok decoded =>
      match C.ParseAddressList (C.parseAddressComment decoded) with
      | GoResult.ok addrs => some (GoResult.ok addrs)
      | GoResult.err e0 =>
        let addrStr := hGet h field
        let fst := goIndexChar addrStr '<'
        let lst := goLastIndexChar addrStr '>'
        if fst < 0 ∨ lst < 0 ∨ fst ≥ lst then some (GoResult.err e0)
        else
          match bracketLoop (addrStr.length + 1) addrStr fst lst [] with
          | none => none
          | some pieces => some (C.ParseAddressList (joinComma pieces))

/-- Modelled from the spec: `pmapi.NewMessage` (the pmapi package is not
part of this core) constructs a Message with every field unset/empty:
empty strings and lists, no sender, no header, `Time = 0`. -/
def NewMessage : Message := {}

/-- `mail.Header.Date`: empty `Date` value is `ErrHeaderNotPresent`,
otherwise the collaborator `mail.ParseDate` decides. -/
def headerDate (C : Collab) (h : Hdr) : Option GoTime :=
  let v := hGet h (str "Date")
  if v = [] then none else C.ParseDate v

/-- Whether the `Date` field parsed to a usable (non-zero) time; this is the
negation of the `err != nil || d.IsZero()` test of `header.go:61`. -/
def goodDate : Option GoTime → Bool
  | some t => !t.isZero
  | none => false

/-- `header.go:149-151`: decode `Subject`; on decode error the subject is
left at its default. -/
def applySubject (C : Collab) (h : Hdr) (m : Message) : Message :=
  match C.DecodeHeader (hGet h (str "Subject")) with
  | GoResult.ok t => { m with subject := t }
  | GoResult.err _ => m

/-- `header.go:152-154`: take the first `From` address as Sender, only when
the sanitizer succeeded with a non-empty list. -/
def applyFrom (r : GoResult (List Addr)) (m : Message) : Message :=
  match r with
  | GoResult.ok (a :: _) => { m with sender := some a }
  | _ => m

/-- `header.go:155-157`: `Reply-To`, only when non-empty. -/
def applyReplyTo (r : GoResult (List Addr)) (m : Message) : Message :=
  match r with
  | GoResult.ok (a :: rest) => { m with replyTos := a :: rest }
  | _ => m

/-- `header.go:158-160`: `To`, on sanitizer success (possibly empty). -/
def applyTo (r : GoResult (List Addr)) (m : Message) : Message :=
  match r with
  | GoResult.ok addrs => { m with toList := addrs }
  | GoResult.err _ => m

/-- `header.go:161-163`: `Cc`, on sanitizer success. -/
def applyCc (r : GoResult (List Addr)) (m : Message) : Message :=
  match r with
  | GoResult.ok addrs => { m with ccList := addrs }
  | GoResult.err _ => m

/-- `header.go:164-166`: `Bcc`, on sanitizer success. -/
def applyBcc (r : GoResult (List Addr)) (m : Message) : Message :=
  match r with
  | GoResult.ok addrs => { m with bccList := addrs }
  | GoResult.err _ => m

/-- `header.go:167-170`: `Time` from a parseable, non-zero `Date`. -/
def applyDate (d : Option GoTime) (m : Message) : Message :=
  match d with
  | some t => if t.isZero then m else { m with time := t.unixSec }
  | none => m

/-- `header.go:172`: attach the original header mapping. -/
def finishParse (h : Hdr) (m : Message) : Message := { m with header := some h }

/-- `parseHeader` (`header.go:146-174`).  The `Option` wrapper propagates a
potential panic of `sanitizeAddressList` (never happens, see the totality
theorem); the `Option GoErr` component is the function's own `err` named
return, which is never assigned (every inner `err` is shadowed). -/
def parseHeader (C : Collab) (h : Hdr) : Option (Message × Option GoErr) := do
  let m1 := applySubject C h NewMessage
  let rFrom ← sanitizeAddressList C h (str "From")
  let m2 := applyFrom rFrom m1
  let rReply ← sanitizeAddressList C h (str "Reply-To")
  let m3 := applyReplyTo rReply m2
  let rTo ← sanitizeAddressList C h (str "To")
  let m4 := applyTo rTo m3
  let rCc ← sanitizeAddressList C h (str "Cc")
  let m5 := applyCc rCc m4
  let rBcc ← sanitizeAddressList C h (str "Bcc")
  let m6 := applyBcc rBcc m5
  let m7 := applyDate (headerDate C h) m6
  return (finishParse h m7, none)

/-- Builder state: the mapping `h` being built, the contents observed
through `msg.Header`, and whether the two are the same object (the cast at
`header.go:37` shares the underlying map). -/
structure BState where
  h : Hdr
  msgHeader : Option Hdr
  aliased : Bool
deriving DecidableEq

/-- One `h.Set(k, v)` call: mutates the built mapping, and — through the
alias — the mapping held by `msg.Header` when it was non-nil. -/
def bSet (k v : Str) (st : BState) : BState :=
  { h := hSet k v st.h
    msgHeader := if st.aliased then some (hSet k v st.h) else st.msgHeader
    aliased := st.aliased }

/-- `header.go:33-38`: start from `msg.Header` if non-nil (sharing its
storage), else from a fresh empty mapping. -/
def initialState (msg : Message) : BState :=
  match msg.header with
  | some hh => { h := hh, msgHeader := some hh, aliased := true }
  | none => { h := [], msgHeader := none, aliased := false }

/-- `header.go:40-56`: Subject unconditionally; From / Reply-To / To / Cc /
Bcc only when the corresponding Message field is present / non-empty. -/
def setStdFields (C : Collab) (msg : Message) (st0 : BState) : BState :=
  let st1 := bSet (str "Subject") (C.EncodeHeader msg.subject) st0
  let st2 := match msg.sender with
    | some sndr => bSet (str "From") (C.EncodeHeader (C.addressString sndr)) st1
    | none => st1
  let st3 := if 0 < msg.replyTos.length then
      bSet (str "Reply-To") (C.EncodeHeader (C.formatAddressList msg.replyTos)) st2
    else st2
  let st4 := if 0 < msg.toList.length then
      bSet (str "To") (C.EncodeHeader (C.formatAddressList msg.toList)) st3
    else st3
  let st5 := if 0 < msg.ccList.length then
      bSet (str "Cc") (C.EncodeHeader (C.formatAddressList msg.ccList)) st4
    else st4
  if 0 < msg.bccList.length then
    bSet (str "Bcc") (C.EncodeHeader (C.formatAddressList msg.bccList)) st5
  else st5

/-- `header.go:58-64`: when `Time > 0`, set `X-Pm-Date`, and fix `Date`
when `msg.Header.Date()` errors or yields the zero time.  `msg.Header`
aliases the mapping under construction when non-nil (so the read sees the
current map, whose `Date` field no earlier `Set` touched); when nil, the
read is against the nil map and always errors. -/
def setDateFields (C : Collab) (msg : Message) (st : BState) : BState :=
  if 0 < msg.time then
    let stA := bSet (str "X-Pm-Date") (C.FormatRFC1123Z msg.time) st
    let d := match msg.header with
      | some _ => headerDate C stA.h
      | none => headerDate C []
    match d with
    | none => bSet (str "Date") (C.FormatRFC1123Z msg.time) stA
    | some t =>
      if t.isZero then bSet (str "Date") (C.FormatRFC1123Z msg.time) stA else stA
  else st

/-- The value of the `msg.Header.Date()` read in `header.go:61`, expressed
against a builder state whose `Date` field is untouched: reading through a
nil `msg.Header` always errors, reading through a non-nil one sees the
aliased (current) mapping. -/
def dateView (C : Collab) (msg : Message) (st : BState) : Option GoTime :=
  match msg.header with
  | some _ => headerDate C st.h
  | none => none

/-- `header.go:69-74`: External-Id handling. -/
def setExternalID (msg : Message) (st : BState) : BState :=
  if msg.externalID = [] then st
  else
    let stB := bSet (str "X-Pm-External-Id") (str "<" ++ msg.externalID ++ str ">") st
    if hGet stB.h (str "Message-Id") = [] then
      bSet (str "Message-Id") (str "<" ++ msg.externalID ++ str ">") stB
    else stB

/-- `header.go:75-85`: Internal-Id handling, with the substring-containment
duplicate suppression on `References`. -/
def setInternalID (msg : Message) (st : BState) : BState :=
  if msg.id = [] then st
  else
    let stC := if hGet st.h (str "Message-Id") = [] then
        bSet (str "Message-Id")
          (str "<" ++ msg.id ++ str "@" ++ InternalIDDomain ++ str ">") st
      else st
    let stD := bSet (str "X-Pm-Internal-Id") msg.id stC
    if containsSubstr (hGet stD.h (str "References")) msg.id then stD
    else
      bSet (str "References")
        (hGet stD.h (str "References") ++ str " <" ++ msg.id ++ str "@" ++
          InternalIDDomain ++ str ">") stD

/-- `header.go:86-92`: Conversation-Id handling. -/
def setConversationID (msg : Message) (st : BState) : BState :=
  if msg.conversationID = [] then st
  else
    let stE := bSet (str "X-Pm-ConversationID-Id") msg.conversationID st
    if containsSubstr (hGet stE.h (str "References")) msg.conversationID then stE
    else
      bSet (str "References")
        (hGet stE.h (str "References") ++ str " <" ++ msg.conversationID ++ str "@" ++
          ConversationIDDomain ++ str ">") stE

/-- `GetHeader` (`header.go:32-95`), as the full builder state. -/
def GetHeaderB (C : Collab) (msg : Message) : BState :=
  setConversationID msg
    (setInternalID msg
      (setExternalID msg
        (setDateFields C msg
          (setStdFields C msg (initialState msg)))))

/-- The mapping `GetHeader` returns. -/
def GetHeader (C : Collab) (msg : Message) : Hdr := (GetHeaderB C msg).h

/-- The contents observed through `msg.Header` once `GetHeader` returns
(`none` = still nil). -/
def GetHeaderPost (C : Collab) (msg : Message) : Option Hdr :=
  (GetHeaderB C msg).msgHeader

/-- The alias invariant: the mapping seen through `msg.Header` is the built
mapping itself when aliased, and still nil otherwise. -/
def AliasInv (st : BState) : Prop :=
  st.msgHeader = if st.aliased then some st.h else none

/-- One original-field forward of `header.go:133-139`. -/
def forwardField (att : Attachment) (k : Str) (h : Hdr) : Hdr :=
  let v := hGet att.header k
  if v = [] then h else hSet k v h

/-- `GetAttachmentHeader` (`header.go:115-142`). -/
def GetAttachmentHeader (C : Collab) (att : Attachment) : Hdr :=
  let mediaType := if att.mimeType = str "application/pgp-encrypted" then
      str "application/octet-stream"
    else att.mimeType
  let encodedName := C.EncodeHeader att.name
  let disposition := if containsSubstr (hGet att.header (str "Content-Disposition")) (str "inline") then
      str "inline"
    else str "attachment"
  let h0 : Hdr := []
  let h1 := hSet (str "Content-Type") (C.FormatMediaType mediaType [(str "name", encodedName)]) h0
  let h2 := hSet (str "Content-Transfer-Encoding") (str "base64") h1
  let h3 := hSet (str "Content-Disposition") (C.FormatMediaType disposition [(str "filename", encodedName)]) h2
  forwardField att (str "Content-Location")
    (forwardField att (str "Content-Description")
      (forwardField att (str "Content-Id") h3))

/-! ## Concrete instantiations used by counterexamples and witnesses -/

/-- The raw field value of the sanitizer-fallback scenario (spec section 8). -/
def rawBad : Str := str "Bad <a@example.com>, Name2 <b@example.com>"

/-- A header whose `From` field carries `rawBad`. -/
def hdrBad : Hdr := [(str "From", [rawBad])]

/-- The address `a@example.com` with no display name. -/
def aAddr : Addr := { name := [], address := str "a@example.com" }

/-- The address `b@example.com` with no display name. -/
def bAddr : Addr := { name := [], address := str "b@example.com" }

/-- Identity-flavoured collaborator for concrete runs: decoding succeeds and
returns its input, strict address parsing always fails. -/
def CId : Collab where
  EncodeHeader := id
  DecodeHeader := fun x => GoResult.ok x
  ParseAddressList := fun _ => GoResult.err (GoErr.custom (str "parse"))
  parseAddressComment := id
  addressString := fun a => a.address
  formatAddressList := fun _ => []
  ParseDate := fun _ => none
  FormatRFC1123Z := fun _ => str "time-rfc1123z"
  FormatMediaType := fun d _ => d

/-- Collaborator whose header-value decoder always fails. -/
def CDecodeFail : Collab :=
  { CId with
    DecodeHeader := fun _ => GoResult.err (GoErr.custom (str "forced decode failure")) }

/-- Collaborator whose strict parser accepts exactly the bracket-salvaged
string, returning the two expected addresses. -/
def CFallback : Collab :=
  { CId with
    ParseAddressList := fun x =>
      if x = str "<a@example.com>, <b@example.com>" then GoResult.ok [aAddr, bAddr]
      else GoResult.err (GoErr.custom (str "parse")) }

/-- Collaborator whose address parser succeeds with an empty list. -/
def CEmptyList : Collab :=
  { CId with ParseAddressList := fun _ => GoResult.ok [] }

/-- Collaborator whose date parser accepts exactly the value `GOOD` as a
non-zero time. -/
def CDate : Collab :=
  { CId with
    ParseDate := fun v =>
      if v = str "GOOD" then some { unixSec := 9, isZero := false } else none }

/-- Header used by the decode-error witness. -/
def hdrC5 : Hdr := [(str "To", [str "someone"])]

/-- Header whose `From` and `Reply-To` decode fine but parse to empty lists
under `CEmptyList`. -/
def hdrC10 : Hdr := [(str "From", [str "x"]), (str "Reply-To", [str "y"])]

/-- Message whose pre-existing `References` contains the ID `a` as a
substring of an unrelated token. -/
def msgRefCex : Message :=
  { id := str "a", header := some [(str "References", [str "<a@b.c>"])] }

/-- Message whose pre-existing `References` does not contain its ID `i`. -/
def msgRefAdd : Message :=
  { id := str "i", header := some [(str "References", [str "<q@w>"])] }

/-- Message whose pre-existing `References` already holds the full internal
reference token for its ID `i`. -/
def msgRefHas : Message :=
  { id := str "i",
    header := some [(str "References", [str "<i@protonmail.internalid>"])] }

/-- Message with `Time > 0` and a parseable non-zero `Date` (under `CDate`). -/
def msgDate : Message :=
  { time := 5, header := some [(str "Date", [str "GOOD"])] }

/-- Message with `Time > 0` and no header at all. -/
def msgNoDate : Message := { time := 5 }

/-- A pre-existing header mapping observed before/after `GetHeader`. -/
def hdrMut : Hdr := [(str "Subject", [str "Hi"])]

/-- Message whose non-nil header mapping is `hdrMut`. -/
def msgMut : Message := { subject := str "s", header := some hdrMut }

/-- Message with empty Subject but a pre-existing Subject header value. -/
def msgSubj : Message := { subject := [], header := some [(str "Subject", [str "Hi"])] }

/-- Message with no sender and empty address lists, whose pre-existing
header carries values for all five guarded fields. -/
def msgFromW : Message :=
  { subject := str "s", sender := none,
    header := some [(str "From", [str "keep"]), (str "Reply-To", [str "keepR"]),
      (str "To", [str "keepT"]), (str "Cc", [str "keepC"]), (str "Bcc", [str "keepB"])] }

/-! ## Basic lemmas about the header-map model -/

theorem hLookup_hRemove (k k' : Str) (h : Hdr) (hne : k' ≠ k) :
    hLookup k' (hRemove k h) = hLookup k' h := by
  induction h with
  | nil => rfl
  | cons p t ih =>
    obtain ⟨pk, pv⟩ := p
    by_cases hpk : pk = k
    · simp only [hRemove, if_pos hpk, hLookup, ih]
      rw [if_neg (by rw [hpk]; exact fun e => hne e.symm)]
    · simp only [hRemove, if_neg hpk, hLookup]
      by_cases hpk' : pk = k'
      · rw [if_pos hpk', if_pos hpk']
      · rw [if_neg hpk', if_neg hpk', ih]

theorem hGet_hSet_self (h : Hdr) (k v : Str) : hGet (hSet k v h) k = v := by
  simp [hGet, hSet, hLookup]

theorem hGet_hSet_ne (h : Hdr) (k k' v : Str)
    (hne : canonicalKey k' ≠ canonicalKey k) :
    hGet (hSet k v h) k' = hGet h k' := by
  simp only [hGet, hSet, hLookup]
  rw [if_neg (fun e => hne e.symm), hLookup_hRemove _ _ _ hne]

theorem hGet_bSet_self (st : BState) (k v : Str) : hGet (bSet k v st).h k = v :=
  hGet_hSet_self st.h k v

theorem hGet_bSet_ne (st : BState) (k k' v : Str)
    (hne : canonicalKey k' ≠ canonicalKey k) :
    hGet (bSet k v st).h k' = hGet st.h k' :=
  hGet_hSet_ne st.h k k' v hne

theorem hGet_iteSet (b : Prop) [Decidable b] (k v : Str) (st : BState) (k' : Str)
    (hne : canonicalKey k' ≠ canonicalKey k) :
    hGet (if b then bSet k v st else st).h k' = hGet st.h k' := by
  split
  · exact hGet_bSet_ne st k k' v hne
  · rfl

theorem bSet_aliased (k v : Str) (st : BState) : (bSet k v st).aliased = st.aliased := rfl

theorem AliasInv_bSet (k v : Str) (st : BState) (hst : AliasInv st) :
    AliasInv (bSet k v st) := by
  unfold AliasInv at hst ⊢
  unfold bSet
  by_cases ha : st.aliased = true
  · simp [ha]
  · have ha' : st.aliased = false := by revert ha; cases st.aliased <;> simp
    simp [ha'] at hst ⊢
    exact hst

theorem AliasInv_iteSet (b : Prop) [Decidable b] (k v : Str) (st : BState)
    (hst : AliasInv st) : AliasInv (if b then bSet k v st else st) := by
  split
  · exact AliasInv_bSet k v st hst
  · exact hst

theorem headerDate_bSet_ne (C : Collab) (k v : Str) (st : BState)
    (hne : canonicalKey (str "Date") ≠ canonicalKey k) :
    headerDate C (bSet k v st).h = headerDate C st.h := by
  unfold headerDate
  rw [hGet_bSet_ne st k _ v hne]

/-! ## Stage lemmas for the builder chain -/

theorem setStd_keep (C : Collab) (msg : Message) (st : BState) (k : Str)
    (h1 : canonicalKey k ≠ canonicalKey (str "Subject"))
    (h2 : canonicalKey k ≠ canonicalKey (str "From"))
    (h3 : canonicalKey k ≠ canonicalKey (str "Reply-To"))
    (h4 : canonicalKey k ≠ canonicalKey (str "To"))
    (h5 : canonicalKey k ≠ canonicalKey (str "Cc"))
    (h6 : canonicalKey k ≠ canonicalKey (str "Bcc")) :
    hGet (setStdFields C msg st).h k = hGet st.h k := by
  simp only [setStdFields]
  rw [hGet_iteSet _ _ _ _ _ h6, hGet_iteSet _ _ _ _ _ h5, hGet_iteSet _ _ _ _ _ h4,
    hGet_iteSet _ _ _ _ _ h3]
  cases msg.sender with
  | some a => rw [hGet_bSet_ne _ _ _ _ h2, hGet_bSet_ne _ _ _ _ h1]
  | none => rw [hGet_bSet_ne _ _ _ _ h1]

theorem setDate_keep (C : Collab) (msg : Message) (st : BState) (k : Str)
    (h1 : canonicalKey k ≠ canonicalKey (str "X-Pm-Date"))
    (h2 : canonicalKey k ≠ canonicalKey (str "Date")) :
    hGet (setDateFields C msg st).h k = hGet st.h k := by
  simp only [setDateFields]
  split
  · split
    · rw [hGet_bSet_ne _ _ _ _ h2, hGet_bSet_ne _ _ _ _ h1]
    · split
      · rw [hGet_bSet_ne _ _ _ _ h2, hGet_bSet_ne _ _ _ _ h1]
      · rw [hGet_bSet_ne _ _ _ _ h1]
  · rfl

theorem setExternal_keep (msg : Message) (st : BState) (k : Str)
    (h1 : canonicalKey k ≠ canonicalKey (str "X-Pm-External-Id"))
    (h2 : canonicalKey k ≠ canonicalKey (str "Message-Id")) :
    hGet (setExternalID msg st).h k = hGet st.h k := by
  simp only [setExternalID]
  split
  · rfl
  · split
    · rw [hGet_bSet_ne _ _ _ _ h2, hGet_bSet_ne _ _ _ _ h1]
    · rw [hGet_bSet_ne _ _ _ _ h1]

theorem setInternal_keep (msg : Message) (st : BState) (k : Str)
    (h1 : canonicalKey k ≠ canonicalKey (str "Message-Id"))
    (h2 : canonicalKey k ≠ canonicalKey (str "X-Pm-Internal-Id"))
    (h3 : canonicalKey k ≠ canonicalKey (str "References")) :
    hGet (setInternalID msg st).h k = hGet st.h k := by
  simp only [setInternalID]
  split
  · rfl
  · split <;> split <;>
      first
        | rw [hGet_bSet_ne _ _ _ _ h3, hGet_bSet_ne _ _ _ _ h2, hGet_bSet_ne _ _ _ _ h1]
        | rw [hGet_bSet_ne _ _ _ _ h2, hGet_bSet_ne _ _ _ _ h1]
        | rw [hGet_bSet_ne _ _ _ _ h3, hGet_bSet_ne _ _ _ _ h2]
        | rw [hGet_bSet_ne _ _ _ _ h2]

theorem setConversation_keep (msg : Message) (st : BState) (k : Str)
    (h1 : canonicalKey k ≠ canonicalKey (str "X-Pm-ConversationID-Id"))
    (h2 : canonicalKey k ≠ canonicalKey (str "References")) :
    hGet (setConversationID msg st).h k = hGet st.h k := by
  simp only [setConversationID]
  split
  · rfl
  · split
    · rw [hGet_bSet_ne _ _ _ _ h1]
    · rw [hGet_bSet_ne _ _ _ _ h2, hGet_bSet_ne _ _ _ _ h1]

theorem setConversation_nil (msg : Message) (st : BState)
    (hc : msg.conversationID = []) : setConversationID msg st = st := by
  simp [setConversationID, hc]

theorem setStd_subject (C : Collab) (msg : Message) (st : BState) :
    hGet (setStdFields C msg st).h (str "Subject") = C.EncodeHeader msg.subject := by
  simp only [setStdFields]
  rw [hGet_iteSet _ _ _ _ _ (by decide), hGet_iteSet _ _ _ _ _ (by decide),
    hGet_iteSet _ _ _ _ _ (by decide), hGet_iteSet _ _ _ _ _ (by decide)]
  cases msg.sender with
  | some a => rw [hGet_bSet_ne _ _ _ _ (by decide), hGet_bSet_self]
  | none => rw [hGet_bSet_self]

theorem setStd_from_none (C : Collab) (msg : Message) (st : BState)
    (hs : msg.sender = none) :
    hGet (setStdFields C msg st).h (str "From") = hGet st.h (str "From") := by
  simp only [setStdFields]
  rw [hGet_iteSet _ _ _ _ _ (by decide), hGet_iteSet _ _ _ _ _ (by decide),
    hGet_iteSet _ _ _ _ _ (by decide), hGet_iteSet _ _ _ _ _ (by decide), hs]
  rw [hGet_bSet_ne _ _ _ _ (by decide)]

theorem setStd_replyTo_nil (C : Collab) (msg : Message) (st : BState)
    (hr : msg.replyTos = []) :
    hGet (setStdFields C msg st).h (str "Reply-To") = hGet st.h (str "Reply-To") := by
  simp only [setStdFields]
  rw [hGet_iteSet _ _ _ _ _ (by decide), hGet_iteSet _ _ _ _ _ (by decide),
    hGet_iteSet _ _ _ _ _ (by decide), hr, if_neg (by simp)]
  cases msg.sender with
  | some a => rw [hGet_bSet_ne _ _ _ _ (by decide), hGet_bSet_ne _ _ _ _ (by decide)]
  | none => rw [hGet_bSet_ne _ _ _ _ (by decide)]

theorem setStd_to_nil (C : Collab) (msg : Message) (st : BState)
    (ht : msg.toList = []) :
    hGet (setStdFields C msg st).h (str "To") = hGet st.h (str "To") := by
  simp only [setStdFields]
  rw [hGet_iteSet _ _ _ _ _ (by decide), hGet_iteSet _ _ _ _ _ (by decide),
    ht, if_neg (by simp), hGet_iteSet _ _ _ _ _ (by decide)]
  cases msg.sender with
  | some a => rw [hGet_bSet_ne _ _ _ _ (by decide), hGet_bSet_ne _ _ _ _ (by decide)]
  | none => rw [hGet_bSet_ne _ _ _ _ (by decide)]

theorem setStd_cc_nil (C : Collab) (msg : Message) (st : BState)
    (hc : msg.ccList = []) :
    hGet (setStdFields C msg st).h (str "Cc") = hGet st.h (str "Cc") := by
  simp only [setStdFields]
  rw [hGet_iteSet _ _ _ _ _ (by decide), hc, if_neg (by simp),
    hGet_iteSet _ _ _ _ _ (by decide), hGet_iteSet _ _ _ _ _ (by decide)]
  cases msg.sender with
  | some a => rw [hGet_bSet_ne _ _ _ _ (by decide), hGet_bSet_ne _ _ _ _ (by decide)]
  | none => rw [hGet_bSet_ne _ _ _ _ (by decide)]

theorem setStd_bcc_nil (C : Collab) (msg : Message) (st : BState)
    (hb : msg.bccList = []) :
    hGet (setStdFields C msg st).h (str "Bcc") = hGet st.h (str "Bcc") := by
  simp only [setStdFields]
  rw [hb, if_neg (by simp), hGet_iteSet _ _ _ _ _ (by decide),
    hGet_iteSet _ _ _ _ _ (by decide), hGet_iteSet _ _ _ _ _ (by decide)]
  cases msg.sender with
  | some a => rw [hGet_bSet_ne _ _ _ _ (by decide), hGet_bSet_ne _ _ _ _ (by decide)]
  | none => rw [hGet_bSet_ne _ _ _ _ (by decide)]

theorem dateView_eq (C : Collab) (msg : Message) (st : BState)
    (hd : hGet st.h (str "Date") = hGet (initialState msg).h (str "Date")) :
    dateView C msg st = headerDate C (initialState msg).h := by
  unfold dateView
  cases hh : msg.header with
  | some a =>
    show headerDate C st.h = headerDate C (initialState msg).h
    unfold headerDate
    rw [hd]
  | none =>
    show (none : Option GoTime) = headerDate C (initialState msg).h
    simp [initialState, hh, headerDate, hGet, hLookup]

theorem setDate_xpmdate (C : Collab) (msg : Message) (st : BState)
    (ht : 0 < msg.time) :
    hGet (setDateFields C msg st).h (str "X-Pm-Date") = C.FormatRFC1123Z msg.time := by
  simp only [setDateFields]
  rw [if_pos ht]
  split
  · rw [hGet_bSet_ne _ _ _ _ (by decide), hGet_bSet_self]
  · split
    · rw [hGet_bSet_ne _ _ _ _ (by decide), hGet_bSet_self]
    · rw [hGet_bSet_self]

theorem setDate_date (C : Collab) (msg : Message) (st : BState) (ht : 0 < msg.time) :
    hGet (setDateFields C msg st).h (str "Date") =
      (if goodDate (dateView C msg st) = true then hGet st.h (str "Date")
       else C.FormatRFC1123Z msg.time) := by
  simp only [setDateFields]
  rw [if_pos ht]
  have hscr : (match msg.header with
      | some _ => headerDate C (bSet (str "X-Pm-Date") (C.FormatRFC1123Z msg.time) st).h
      | none => headerDate C ([] : Hdr)) = dateView C msg st := by
    unfold dateView
    cases msg.header with
    | some a => exact headerDate_bSet_ne C _ _ st (by decide)
    | none => simp [headerDate, hGet, hLookup]
  rw [hscr]
  split
  · rename_i hv
    rw [hv, hGet_bSet_self]
    simp [goodDate]
  · rename_i t hv
    rw [hv]
    cases hz : t.isZero with
    | true =>
      rw [if_pos rfl, hGet_bSet_self]
      simp [goodDate, hz]
    | false =>
      rw [if_neg (by simp)]
      rw [hGet_bSet_ne st (str "X-Pm-Date") (str "Date") (C.FormatRFC1123Z msg.time) (by decide)]
      simp [goodDate, hz]

theorem refsAppend_get (stD : BState) (i refs : Str)
    (hr : hGet stD.h (str "References") = refs) :
    hGet (if containsSubstr (hGet stD.h (str "References")) i = true then stD
          else bSet (str "References")
            (hGet stD.h (str "References") ++ str " <" ++ i ++ str "@" ++
              InternalIDDomain ++ str ">") stD).h (str "References") =
      (if containsSubstr refs i = true then refs
       else refs ++ str " <" ++ i ++ str "@" ++ InternalIDDomain ++ str ">") := by
  rw [hr]
  split
  · exact hr
  · exact hGet_bSet_self stD _ _

theorem setInternal_internalId (msg : Message) (st : BState) (hid : ¬ msg.id = []) :
    hGet (setInternalID msg st).h (str "X-Pm-Internal-Id") = msg.id := by
  simp only [setInternalID]
  rw [if_neg hid]
  split <;> split <;>
    first
      | rw [hGet_bSet_self]
      | rw [hGet_bSet_ne _ _ _ _ (by decide), hGet_bSet_self]

theorem setInternal_references (msg : Message) (st : BState) (hid : ¬ msg.id = []) :
    hGet (setInternalID msg st).h (str "References") =
      (if containsSubstr (hGet st.h (str "References")) msg.id = true
       then hGet st.h (str "References")
       else hGet st.h (str "References") ++ str " <" ++ msg.id ++ str "@" ++
         InternalIDDomain ++ str ">") := by
  simp only [setInternalID]
  rw [if_neg hid]
  split
  · exact refsAppend_get _ _ _
      (by rw [hGet_bSet_ne _ _ _ _ (by decide), hGet_bSet_ne _ _ _ _ (by decide)])
  · exact refsAppend_get _ _ _ (by rw [hGet_bSet_ne _ _ _ _ (by decide)])

/-! ## Alias-invariant lemmas (the built mapping is `msg.Header` when the
latter started non-nil) -/

theorem AliasInv_initial (msg : Message) : AliasInv (initialState msg) := by
  unfold AliasInv initialState
  cases msg.header <;> rfl

theorem initial_aliased (msg : Message) :
    (initialState msg).aliased = msg.header.isSome := by
  unfold initialState
  cases msg.header <;> rfl

theorem iteSet_aliased (b : Prop) [Decidable b] (k v : Str) (st : BState) :
    (if b then bSet k v st else st).aliased = st.aliased := by
  split <;> rfl

theorem setStd_inv (C : Collab) (msg : Message) (st : BState) (h : AliasInv st) :
    AliasInv (setStdFields C msg st) := by
  simp only [setStdFields]
  apply AliasInv_iteSet
  apply AliasInv_iteSet
  apply AliasInv_iteSet
  apply AliasInv_iteSet
  cases msg.sender with
  | some a => exact AliasInv_bSet _ _ _ (AliasInv_bSet _ _ _ h)
  | none => exact AliasInv_bSet _ _ _ h

theorem setStd_aliased (C : Collab) (msg : Message) (st : BState) :
    (setStdFields C msg st).aliased = st.aliased := by
  simp only [setStdFields]
  rw [iteSet_aliased, iteSet_aliased, iteSet_aliased, iteSet_aliased]
  cases msg.sender <;> rfl

theorem setDate_inv (C : Collab) (msg : Message) (st : BState) (h : AliasInv st) :
    AliasInv (setDateFields C msg st) := by
  simp only [setDateFields]
  split
  · split
    · exact AliasInv_bSet _ _ _ (AliasInv_bSet _ _ _ h)
    · split
      · exact AliasInv_bSet _ _ _ (AliasInv_bSet _ _ _ h)
      · exact AliasInv_bSet _ _ _ h
  · exact h

theorem setDate_aliased (C : Collab) (msg : Message) (st : BState) :
    (setDateFields C msg st).aliased = st.aliased := by
  simp only [setDateFields]
  split
  · split
    · rfl
    · split <;> rfl
  · rfl

theorem setExternal_inv (msg : Message) (st : BState) (h : AliasInv st) :
    AliasInv (setExternalID msg st) := by
  simp only [setExternalID]
  split
  · exact h
  · split
    · exact AliasInv_bSet _ _ _ (AliasInv_bSet _ _ _ h)
    · exact AliasInv_bSet _ _ _ h

theorem setExternal_aliased (msg : Message) (st : BState) :
    (setExternalID msg st).aliased = st.aliased := by
  simp only [setExternalID]
  split
  · rfl
  · split <;> rfl

theorem setInternal_inv (msg : Message) (st : BState) (h : AliasInv st) :
    AliasInv (setInternalID msg st) := by
  simp only [setInternalID]
  split
  · exact h
  · split <;> split <;>
      first
        | exact AliasInv_bSet _ _ _ (AliasInv_bSet _ _ _ (AliasInv_bSet _ _ _ h))
        | exact AliasInv_bSet _ _ _ (AliasInv_bSet _ _ _ h)
        | exact AliasInv_bSet _ _ _ h

theorem setInternal_aliased (msg : Message) (st : BState) :
    (setInternalID msg st).aliased = st.aliased := by
  simp only [setInternalID]
  split
  · rfl
  · split <;> split <;> rfl

theorem setConversation_inv (msg : Message) (st : BState) (h : AliasInv st) :
    AliasInv (setConversationID msg st) := by
  simp only [setConversationID]
  split
  · exact h
  · split
    · exact AliasInv_bSet _ _ _ h
    · exact AliasInv_bSet _ _ _ (AliasInv_bSet _ _ _ h)

theorem setConversation_aliased (msg : Message) (st : BState) :
    (setConversationID msg st).aliased = st.aliased := by
  simp only [setConversationID]
  split
  · rfl
  · split <;> rfl

theorem GetHeaderB_inv (C : Collab) (msg : Message) : AliasInv (GetHeaderB C msg) := by
  unfold GetHeaderB
  exact setConversation_inv _ _
    (setInternal_inv _ _
      (setExternal_inv _ _
        (setDate_inv _ _ _
          (setStd_inv _ _ _ (AliasInv_initial msg)))))

theorem GetHeaderB_aliased (C : Collab) (msg : Message) :
    (GetHeaderB C msg).aliased = msg.header.isSome := by
  unfold GetHeaderB
  rw [setConversation_aliased, setInternal_aliased, setExternal_aliased,
    setDate_aliased, setStd_aliased, initial_aliased]

/-! ## Substring-containment lemmas -/

theorem containsSubstr_iff (hay needle : Str) :
    containsSubstr hay needle = true ↔ needle <:+: hay := by
  induction hay with
  | nil =>
    cases needle with
    | nil => simp [containsSubstr]
    | cons b nt => simp [containsSubstr]
  | cons a t ih =>
    cases needle with
    | nil => simp [containsSubstr]
    | cons b nt =>
      simp only [containsSubstr, Bool.or_eq_true, List.isPrefixOf_iff_prefix, ih,
        List.infix_cons_iff]

theorem containsSubstr_of_token (r i d : Str)
    (h : containsSubstr r (str "<" ++ i ++ str "@" ++ d ++ str ">") = true) :
    containsSubstr r i = true := by
  rw [containsSubstr_iff] at h ⊢
  refine List.IsInfix.trans ?_ h
  refine ⟨str "<", str "@" ++ d ++ str ">", ?_⟩
  simp [List.append_assoc]

/-! ## Index lemmas for the bracket-extraction loop -/

theorem idxOf?_get {l : Str} {c : Char} {n : Nat} (h : idxOf? l c = some n) :
    l.get? n = some c := by
  induction l generalizing n with
  | nil => simp [idxOf?] at h
  | cons a t ih =>
    by_cases hac : a = c
    · rw [idxOf?, if_pos hac] at h
      cases h
      simp [hac]
    · rw [idxOf?, if_neg hac] at h
      rcases Option.map_eq_some'.mp h with ⟨m, hm, hn⟩
      subst hn
      simpa using ih hm

theorem idxOf?_lt {l : Str} {c : Char} {n : Nat} (h : idxOf? l c = some n) :
    n < l.length := by
  obtain ⟨hlt, -⟩ := List.get?_eq_some.mp (idxOf?_get h)
  exact hlt

theorem mem_idxOf? {l : Str} {c : Char} (h : c ∈ l) : ∃ n, idxOf? l c = some n := by
  induction l with
  | nil => simp at h
  | cons a t ih =>
    by_cases hac : a = c
    · exact ⟨0, by rw [idxOf?, if_pos hac]⟩
    · have hmem : c ∈ t := by
        rcases List.mem_cons.mp h with h' | h'
        · exact absurd h'.symm hac
        · exact h'
      obtain ⟨m, hm⟩ := ih hmem
      exact ⟨m + 1, by rw [idxOf?, if_neg hac, hm]; rfl⟩

theorem lastIdxOf?_get {l : Str} {c : Char} {n : Nat} (h : lastIdxOf? l c = some n) :
    l.get? n = some c := by
  induction l generalizing n with
  | nil => simp [lastIdxOf?] at h
  | cons a t ih =>
    rw [lastIdxOf?] at h
    cases hlt : lastIdxOf? t c with
    | some m =>
      rw [hlt] at h
      cases h
      simpa using ih hlt
    | none =>
      rw [hlt] at h
      by_cases hac : a = c
      · rw [if_pos hac] at h
        cases h
        simp [hac]
      · rw [if_neg hac] at h
        cases h

theorem lastIdxOf?_lt {l : Str} {c : Char} {n : Nat} (h : lastIdxOf? l c = some n) :
    n < l.length := by
  obtain ⟨hlt, -⟩ := List.get?_eq_some.mp (lastIdxOf?_get h)
  exact hlt

theorem bracketLoop_some (fuel : Nat) : ∀ (t : Str) (acc : List Str),
    t.length < fuel →
    (bracketLoop fuel t (goIndexChar t '<') (goLastIndexChar t '>') acc).isSome = true := by
  induction fuel with
  | zero =>
    intro t acc hlen
    omega
  | succ fuel ih =>
    intro t acc hlen
    by_cases hg : goIndexChar t '<' < goLastIndexChar t '>' ∧ 0 ≤ goIndexChar t '<'
    case neg =>
      rw [bracketLoop, if_neg hg]
      rfl
    case pos =>
      obtain ⟨hlt', hge⟩ := hg
      cases hio : idxOf? t '<' with
      | none =>
        have hneg : goIndexChar t '<' = -1 := by simp [goIndexChar, hio]
        rw [hneg] at hge
        omega
      | some o =>
        have hgo : goIndexChar t '<' = (o : Int) := by simp [goIndexChar, hio]
        cases hil : lastIdxOf? t '>' with
        | none =>
          have hneg : goLastIndexChar t '>' = -1 := by simp [goLastIndexChar, hil]
          rw [hneg, hgo] at hlt'
          omega
        | some l =>
          have hgl : goLastIndexChar t '>' = (l : Int) := by
            simp [goLastIndexChar, hil]
          have holt : o < l := by
            rw [hgo, hgl] at hlt'
            exact_mod_cast hlt'
          have ho_lt : o < t.length := idxOf?_lt hio
          have hl_lt : l < t.length := lastIdxOf?_lt hil
          have hslice1 : sliceFrom t ((o : Nat) : Int) = some (t.drop o) := by
            rw [sliceFrom, if_pos]
            · simp
            · constructor
              · exact Int.ofNat_nonneg o
              · exact_mod_cast Nat.le_of_lt ho_lt
          have hs1get0 : (t.drop o).get? 0 = some '<' := by
            rw [List.get?_drop]
            simpa using idxOf?_get hio
          have hs1getl : (t.drop o).get? (l - o) = some '>' := by
            rw [List.get?_drop]
            rw [show o + (l - o) = l by omega]
            exact lastIdxOf?_get hil
          have hmem : '>' ∈ t.drop o := List.get?_mem hs1getl
          obtain ⟨cl, hcl⟩ := mem_idxOf? hmem
          have hgi1 : goIndexChar (t.drop o) '>' = (cl : Int) := by
            simp [goIndexChar, hcl]
          have hcl_lt : cl < (t.drop o).length := idxOf?_lt hcl
          have hcl_pos : 0 < cl := by
            rcases Nat.eq_zero_or_pos cl with h0 | h0
            · rw [h0] at hcl
              have := idxOf?_get hcl
              rw [hs1get0] at this
              simp at this
            · exact h0
          have hsliceTo : sliceTo (t.drop o) ((cl : Int) + 1) = some ((t.drop o).take (cl + 1)) := by
            rw [sliceTo, if_pos]
            · norm_num
            · constructor
              · omega
              · exact_mod_cast hcl_lt
          have hslice2 : sliceFrom (t.drop o) ((cl : Nat) : Int) = some ((t.drop o).drop cl) := by
            rw [sliceFrom, if_pos]
            · simp
            · constructor
              · exact Int.ofNat_nonneg cl
              · exact_mod_cast Nat.le_of_lt hcl_lt
          have hs2len : ((t.drop o).drop cl).length < fuel := by
            rw [List.length_drop, List.length_drop]
            omega
          rw [bracketLoop, if_pos ⟨hlt', hge⟩, hgo, hslice1]
          simp only [hgi1, hsliceTo, hslice2]
          exact ih _ _ hs2len

theorem sanitizeAddressList_isSome (C : Collab) (h : Hdr) (field : Str) :
    (sanitizeAddressList C h field).isSome = true := by
  simp only [sanitizeAddressList]
  split
  · rfl
  · split
    · rfl
    · split
      · rfl
      · split
        · rfl
        · obtain ⟨ps, hps⟩ := Option.isSome_iff_exists.mp
            (bracketLoop_some ((hGet h field).length + 1) (hGet h field) []
              (Nat.lt_succ_self _))
          rw [hps]
          rfl

theorem hGet_iteSetHdr (b : Prop) [Decidable b] (k v : Str) (h : Hdr) (k' : Str)
    (hne : canonicalKey k' ≠ canonicalKey k) :
    hGet (if b then h else hSet k v h) k' = hGet h k' := by
  split
  · rfl
  · exact hGet_hSet_ne h k k' v hne

/-! ## Projection lemmas for the parser steps -/

theorem applySubject_sender (C : Collab) (h : Hdr) (m : Message) :
    (applySubject C h m).sender = m.sender := by
  unfold applySubject
  split <;> rfl

theorem applySubject_replyTos (C : Collab) (h : Hdr) (m : Message) :
    (applySubject C h m).replyTos = m.replyTos := by
  unfold applySubject
  split <;> rfl

theorem applyFrom_sender_emptyOk (m : Message) :
    (applyFrom (GoResult.ok []) m).sender = m.sender := rfl

theorem applyFrom_replyTos (r : GoResult (List Addr)) (m : Message) :
    (applyFrom r m).replyTos = m.replyTos := by
  unfold applyFrom
  split <;> rfl

theorem applyReplyTo_sender (r : GoResult (List Addr)) (m : Message) :
    (applyReplyTo r m).sender = m.sender := by
  unfold applyReplyTo
  split <;> rfl

theorem applyReplyTo_replyTos_emptyOk (m : Message) :
    (applyReplyTo (GoResult.ok []) m).replyTos = m.replyTos := rfl

theorem applyTo_sender (r : GoResult (List Addr)) (m : Message) :
    (applyTo r m).sender = m.sender := by
  unfold applyTo
  split <;> rfl

theorem applyTo_replyTos (r : GoResult (List Addr)) (m : Message) :
    (applyTo r m).replyTos = m.replyTos := by
  unfold applyTo
  split <;> rfl

theorem applyCc_sender (r : GoResult (List Addr)) (m : Message) :
    (applyCc r m).sender = m.sender := by
  unfold applyCc
  split <;> rfl

theorem applyCc_replyTos (r : GoResult (List Addr)) (m : Message) :
    (applyCc r m).replyTos = m.replyTos := by
  unfold applyCc
  split <;> rfl

theorem applyBcc_sender (r : GoResult (List Addr)) (m : Message) :
    (applyBcc r m).sender = m.sender := by
  unfold applyBcc
  split <;> rfl

theorem applyBcc_replyTos (r : GoResult (List Addr)) (m : Message) :
    (applyBcc r m).replyTos = m.replyTos := by
  unfold applyBcc
  split <;> rfl

theorem applyDate_sender (d : Option GoTime) (m : Message) :
    (applyDate d m).sender = m.sender := by
  unfold applyDate
  split
  · split <;> rfl
  · rfl

theorem applyDate_replyTos (d : Option GoTime) (m : Message) :
    (applyDate d m).replyTos = m.replyTos := by
  unfold applyDate
  split
  · split <;> rfl
  · rfl

theorem finishParse_sender (h : Hdr) (m : Message) :
    (finishParse h m).sender = m.sender := rfl

theorem finishParse_replyTos (h : Hdr) (m : Message) :
    (finishParse h m).replyTos = m.replyTos := rfl

/-! ## Claim theorems -/

/-- C9: `sanitizeAddressList` is total: for every collaborator, header and
field name the bracket-extraction fallback terminates within `length + 1`
iterations and every slice index is in range, so the function never hits the
panic/divergence marker `none`. -/
theorem sanitizeAddressList_terminates (C : Collab) (h : Hdr) (field : Str) :
    (sanitizeAddressList C h field).isSome = true :=
  sanitizeAddressList_isSome C h field

/-- C5: when the field's raw value is non-empty and the header-value decoder
fails on it, `sanitizeAddressList` propagates exactly that decode error and
returns no addresses. -/
theorem sanitizeAddressList_decodeError (C : Collab) (h : Hdr) (field : Str) (e : GoErr)
    (hraw : ¬ hGet h field = [])
    (hdec : C.DecodeHeader (hGet h field) = GoResult.err e) :
    sanitizeAddressList C h field = some (GoResult.err e) := by
  simp only [sanitizeAddressList]
  rw [if_neg hraw, hdec]

/-- Witness for C5 at a concrete header and the always-failing decoder. -/
theorem sanitizeAddressList_decodeError_witness :
    ¬ hGet hdrC5 (str "To") = [] ∧
    sanitizeAddressList CDecodeFail hdrC5 (str "To") =
      some (GoResult.err (GoErr.custom (str "forced decode failure"))) :=
  ⟨by decide,
    sanitizeAddressList_decodeError CDecodeFail hdrC5 (str "To")
      (GoErr.custom (str "forced decode failure")) (by decide) (by decide)⟩

/-- C7: `parseHeader` never fails: it always returns a message together with
a nil error, and the returned message's `Header` field is exactly the input
header mapping (hence never nil). -/
theorem parseHeader_total (C : Collab) (h : Hdr) :
    ∃ m : Message, parseHeader C h = some (m, none) ∧ m.header = some h := by
  obtain ⟨rF, hF⟩ := Option.isSome_iff_exists.mp (sanitizeAddressList_isSome C h (str "From"))
  obtain ⟨rR, hR⟩ := Option.isSome_iff_exists.mp (sanitizeAddressList_isSome C h (str "Reply-To"))
  obtain ⟨rT, hT⟩ := Option.isSome_iff_exists.mp (sanitizeAddressList_isSome C h (str "To"))
  obtain ⟨rC, hC⟩ := Option.isSome_iff_exists.mp (sanitizeAddressList_isSome C h (str "Cc"))
  obtain ⟨rB, hB⟩ := Option.isSome_iff_exists.mp (sanitizeAddressList_isSome C h (str "Bcc"))
  unfold parseHeader
  simp only [hF, hR, hT, hC, hB]
  exact ⟨_, rfl, rfl⟩

/-- C10: element 0 of a sanitized list is read only under a non-emptiness
guard: a `From` (resp. `Reply-To`) field that sanitizes to an empty address
list leaves `Sender` nil (resp. `ReplyTos` at its default empty value), with
no out-of-range access. -/
theorem parseHeader_emptyList_guard (C : Collab) (h : Hdr)
    (hFrom : sanitizeAddressList C h (str "From") = some (GoResult.ok []))
    (hReply : sanitizeAddressList C h (str "Reply-To") = some (GoResult.ok [])) :
    ∃ m : Message, parseHeader C h = some (m, none) ∧ m.sender = none ∧ m.replyTos = [] := by
  obtain ⟨rT, hT⟩ := Option.isSome_iff_exists.mp (sanitizeAddressList_isSome C h (str "To"))
  obtain ⟨rC, hC⟩ := Option.isSome_iff_exists.mp (sanitizeAddressList_isSome C h (str "Cc"))
  obtain ⟨rB, hB⟩ := Option.isSome_iff_exists.mp (sanitizeAddressList_isSome C h (str "Bcc"))
  unfold parseHeader
  simp only [hFrom, hReply, hT, hC, hB, Option.bind_eq_bind, Option.some_bind]
  refine ⟨_, rfl, ?_, ?_⟩
  · rw [finishParse_sender, applyDate_sender, applyBcc_sender, applyCc_sender,
      applyTo_sender, applyReplyTo_sender, applyFrom_sender_emptyOk, applySubject_sender]
    rfl
  · rw [finishParse_replyTos, applyDate_replyTos, applyBcc_replyTos, applyCc_replyTos,
      applyTo_replyTos, applyReplyTo_replyTos_emptyOk, applyFrom_replyTos,
      applySubject_replyTos]
    rfl

/-- Witness for C10: a concrete header whose `From`/`Reply-To` parse to
empty lists; the parsed message has no sender and empty `ReplyTos`. -/
theorem parseHeader_emptyList_guard_witness :
    sanitizeAddressList CEmptyList hdrC10 (str "From") = some (GoResult.ok []) ∧
    sanitizeAddressList CEmptyList hdrC10 (str "Reply-To") = some (GoResult.ok []) ∧
    ∃ m : Message, parseHeader CEmptyList hdrC10 = some (m, none) ∧
      m.sender = none ∧ m.replyTos = [] :=
  ⟨by decide, by decide,
    parseHeader_emptyList_guard CEmptyList hdrC10 (by decide) (by decide)⟩

/-- C8: the disposition of the attachment header is `inline` exactly when
the original `Content-Disposition` value contains the substring `inline`,
and `attachment` otherwise; the built `Content-Disposition` is the
media-type rendering of that disposition with the encoded name as the
`filename` parameter. -/
theorem getAttachmentHeader_disposition (C : Collab) (att : Attachment) :
    hGet (GetAttachmentHeader C att) (str "Content-Disposition") =
      C.FormatMediaType
        (if containsSubstr (hGet att.header (str "Content-Disposition")) (str "inline") = true
         then str "inline" else str "attachment")
        [(str "filename", C.EncodeHeader att.name)] := by
  simp only [GetAttachmentHeader, forwardField]
  rw [hGet_iteSetHdr _ _ _ _ _ (by decide), hGet_iteSetHdr _ _ _ _ _ (by decide),
    hGet_iteSetHdr _ _ _ _ _ (by decide), hGet_hSet_self]

/-- C4 counterexample: with a non-nil input header, the mapping observed
through `msg.Header` after `GetHeader` is the (mutated) built mapping — the
call overwrote the pre-existing `Subject` value `Hi` in place, so the input
Message is not left unchanged and the returned mapping aliases it. -/
theorem getHeader_mutation_cex :
    GetHeaderPost CId msgMut = some (GetHeader CId msgMut) ∧
    hGet (GetHeader CId msgMut) (str "Subject") = str "s" ∧
    (hGet (GetHeader CId msgMut) (str "Subject") == hGet hdrMut (str "Subject")) = false := by
  decide

/-- C4 (amended): `GetHeader` returns a fresh mapping only when
`msg.Header` is nil; otherwise the returned mapping is the very object held
by `msg.Header`, which the call mutates in place through the alias created
by the `textproto.MIMEHeader(msg.Header)` cast. -/
theorem getHeader_alias (C : Collab) (msg : Message) :
    GetHeaderPost C msg =
      (if msg.header.isSome = true then some (GetHeader C msg) else none) := by
  have h1 := GetHeaderB_inv C msg
  unfold AliasInv at h1
  unfold GetHeaderPost GetHeader
  rw [h1, GetHeaderB_aliased]

/-- C6 counterexample: a Message with empty `Subject` and a pre-existing
`Subject` header value `Hi`; the built header's Subject is the encoding of
the empty string, not the pre-existing value — `Subject` is overwritten
unconditionally. -/
theorem getHeader_subject_cex :
    hGet (GetHeader CId msgSubj) (str "Subject") = [] ∧
    (hGet (GetHeader CId msgSubj) (str "Subject") == str "Hi") = false := by
  decide

/-- C6 (amended): `GetHeader` sets `Subject` unconditionally to the encoded
`Message.Subject` (clobbering any pre-existing value even when the subject
is empty); every guarded field is left untouched when the corresponding
Message field is absent: `From` when there is no sender, and `Reply-To` /
`To` / `Cc` / `Bcc` when the respective address list is empty. -/
theorem getHeader_subject (C : Collab) (msg : Message) :
    hGet (GetHeader C msg) (str "Subject") = C.EncodeHeader msg.subject ∧
    (msg.sender = none →
      hGet (GetHeader C msg) (str "From") = hGet (initialState msg).h (str "From")) ∧
    (msg.replyTos = [] →
      hGet (GetHeader C msg) (str "Reply-To") = hGet (initialState msg).h (str "Reply-To")) ∧
    (msg.toList = [] →
      hGet (GetHeader C msg) (str "To") = hGet (initialState msg).h (str "To")) ∧
    (msg.ccList = [] →
      hGet (GetHeader C msg) (str "Cc") = hGet (initialState msg).h (str "Cc")) ∧
    (msg.bccList = [] →
      hGet (GetHeader C msg) (str "Bcc") = hGet (initialState msg).h (str "Bcc")) := by
  refine ⟨?_, ?_, ?_, ?_, ?_, ?_⟩ <;>
    try intro hx
  all_goals
    unfold GetHeader GetHeaderB
    rw [setConversation_keep _ _ _ (by decide) (by decide),
      setInternal_keep _ _ _ (by decide) (by decide) (by decide),
      setExternal_keep _ _ _ (by decide) (by decide),
      setDate_keep _ _ _ _ (by decide) (by decide)]
  · exact setStd_subject C msg (initialState msg)
  · exact setStd_from_none C msg (initialState msg) hx
  · exact setStd_replyTo_nil C msg (initialState msg) hx
  · exact setStd_to_nil C msg (initialState msg) hx
  · exact setStd_cc_nil C msg (initialState msg) hx
  · exact setStd_bcc_nil C msg (initialState msg) hx

/-- Witness for C6 (amended) at a concrete senderless, empty-listed message
whose pre-existing header has values for all five guarded fields. -/
theorem getHeader_subject_witness :
    msgFromW.sender = none ∧ msgFromW.replyTos = [] ∧ msgFromW.toList = [] ∧
    msgFromW.ccList = [] ∧ msgFromW.bccList = [] ∧
    hGet (GetHeader CId msgFromW) (str "Subject") = CId.EncodeHeader msgFromW.subject ∧
    hGet (GetHeader CId msgFromW) (str "From") = hGet (initialState msgFromW).h (str "From") ∧
    hGet (GetHeader CId msgFromW) (str "Reply-To") =
      hGet (initialState msgFromW).h (str "Reply-To") ∧
    hGet (GetHeader CId msgFromW) (str "To") = hGet (initialState msgFromW).h (str "To") ∧
    hGet (GetHeader CId msgFromW) (str "Cc") = hGet (initialState msgFromW).h (str "Cc") ∧
    hGet (GetHeader CId msgFromW) (str "Bcc") = hGet (initialState msgFromW).h (str "Bcc") :=
  ⟨rfl, rfl, rfl, rfl, rfl,
    (getHeader_subject CId msgFromW).1,
    (getHeader_subject CId msgFromW).2.1 rfl,
    (getHeader_subject CId msgFromW).2.2.1 rfl,
    (getHeader_subject CId msgFromW).2.2.2.1 rfl,
    (getHeader_subject CId msgFromW).2.2.2.2.1 rfl,
    (getHeader_subject CId msgFromW).2.2.2.2.2 rfl⟩

/-- C1 counterexample: when the header-value decoder fails on the raw value
`Bad <a@example.com>, Name2 <b@example.com>`, `sanitizeAddressList` returns
the decode error and no addresses — the bracket-extraction fallback is never
reached on a decode failure (it only runs when decoding succeeds and strict
parsing fails). -/
theorem sanitizeAddressList_decodeFail_cex :
    sanitizeAddressList CDecodeFail hdrBad (str "From") =
      some (GoResult.err (GoErr.custom (str "forced decode failure"))) := by
  decide

/-- C1 (amended): for the raw field value
`Bad <a@example.com>, Name2 <b@example.com>`, when decoding succeeds but
strict address-list parsing fails, the bracket-extraction fallback salvages
every `<...>` span of the raw value, and the sanitizer returns the two
addresses `a@example.com` and `b@example.com` in that order (as produced by
the address parser on the salvaged string). -/
theorem sanitizeAddressList_fallback (C : Collab) (d : Str) (e : GoErr)
    (hdec : C.DecodeHeader rawBad = GoResult.ok d)
    (hparse : C.ParseAddressList (C.parseAddressComment d) = GoResult.err e)
    (hfb : C.ParseAddressList (str "<a@example.com>, <b@example.com>") =
      GoResult.ok [aAddr, bAddr]) :
    sanitizeAddressList C hdrBad (str "From") = some (GoResult.ok [aAddr, bAddr]) := by
  have hraw : hGet hdrBad (str "From") = rawBad := by decide
  simp only [sanitizeAddressList, hraw]
  rw [if_neg (by decide)]
  simp only [hdec, hparse]
  rw [if_neg (by decide)]
  have hbl : bracketLoop (rawBad.length + 1) rawBad (goIndexChar rawBad '<')
      (goLastIndexChar rawBad '>') [] =
      some [str "<a@example.com>", str "<b@example.com>"] := by decide
  simp only [hbl]
  have hj : joinComma [str "<a@example.com>", str "<b@example.com>"] =
      str "<a@example.com>, <b@example.com>" := by decide
  rw [hj, hfb]

/-- Witness for C1 (amended) at a concrete collaborator whose decoder is the
identity and whose parser accepts exactly the salvaged bracket string. -/
theorem sanitizeAddressList_fallback_witness :
    sanitizeAddressList CFallback hdrBad (str "From") =
      some (GoResult.ok [aAddr, bAddr]) :=
  sanitizeAddressList_fallback CFallback rawBad (GoErr.custom (str "parse"))
    (by decide) (by decide) (by decide)

/-- C2 counterexample: a Message with ID `a` whose pre-existing `References`
value `<a@b.c>` contains `a` as a substring of an unrelated token: the
substring check suppresses the append, so the built header's `References`
contains the token `<a@InternalIDDomain>` zero times, not exactly once. -/
theorem getHeader_references_cex :
    countOccur (hGet (GetHeader CId msgRefCex) (str "References"))
      (str "<" ++ str "a" ++ str "@" ++ InternalIDDomain ++ str ">") = 0 ∧
    hGet (GetHeader CId msgRefCex) (str "X-Pm-Internal-Id") = str "a" := by
  decide

/-- C2 (amended): for every Message with non-empty ID (and no
ConversationID), the built header's `X-Pm-Internal-Id` equals the ID; the
reference token ` <ID@InternalIDDomain>` is appended to `References`
exactly when the pre-existing `References` does not contain the ID as a
substring; and when `References` already contains the full token, it is
left unchanged — no second copy is ever added (idempotence via the
substring-containment check). -/
theorem getHeader_internalID (C : Collab) (msg : Message)
    (hid : ¬ msg.id = []) (hconv : msg.conversationID = []) :
    hGet (GetHeader C msg) (str "X-Pm-Internal-Id") = msg.id ∧
    (containsSubstr (hGet (initialState msg).h (str "References")) msg.id = false →
      hGet (GetHeader C msg) (str "References") =
        hGet (initialState msg).h (str "References") ++ str " <" ++ msg.id ++
          str "@" ++ InternalIDDomain ++ str ">") ∧
    (containsSubstr (hGet (initialState msg).h (str "References"))
        (str "<" ++ msg.id ++ str "@" ++ InternalIDDomain ++ str ">") = true →
      hGet (GetHeader C msg) (str "References") =
        hGet (initialState msg).h (str "References")) := by
  have hrefs8 : hGet (setExternalID msg
      (setDateFields C msg (setStdFields C msg (initialState msg)))).h (str "References") =
      hGet (initialState msg).h (str "References") := by
    rw [setExternal_keep _ _ _ (by decide) (by decide),
      setDate_keep _ _ _ _ (by decide) (by decide)]
    exact setStd_keep _ _ _ _ (by decide) (by decide) (by decide) (by decide)
      (by decide) (by decide)
  unfold GetHeader GetHeaderB
  rw [setConversation_nil msg _ hconv]
  refine ⟨setInternal_internalId msg _ hid, ?_, ?_⟩
  · intro hc
    rw [setInternal_references msg _ hid, hrefs8, if_neg (by simp [hc])]
  · intro hc
    have hc' : containsSubstr (hGet (initialState msg).h (str "References")) msg.id = true :=
      containsSubstr_of_token _ _ _ hc
    rw [setInternal_references msg _ hid, hrefs8, if_pos hc']

/-- Witness for C2 (amended) at two concrete Messages: one whose
`References` lacks the ID (the token is appended), one whose `References`
already holds the full token (left unchanged). -/
theorem getHeader_internalID_witness :
    hGet (GetHeader CId msgRefAdd) (str "X-Pm-Internal-Id") = msgRefAdd.id ∧
    hGet (GetHeader CId msgRefAdd) (str "References") =
      hGet (initialState msgRefAdd).h (str "References") ++ str " <" ++ msgRefAdd.id ++
        str "@" ++ InternalIDDomain ++ str ">" ∧
    hGet (GetHeader CId msgRefHas) (str "References") =
      hGet (initialState msgRefHas).h (str "References") :=
  ⟨(getHeader_internalID CId msgRefAdd (by decide) rfl).1,
    (getHeader_internalID CId msgRefAdd (by decide) rfl).2.1 (by decide),
    (getHeader_internalID CId msgRefHas (by decide) rfl).2.2 (by decide)⟩

/-- C3: for every Message with `Time > 0`, the built header's `X-Pm-Date`
is the RFC-1123-numeric-zone rendering of `Time`; `Date` is set to that same
value exactly when the pre-existing `Date` is absent, unparsable, or parses
to the zero time, and a parseable non-zero pre-existing `Date` value is left
unchanged. -/
theorem getHeader_dates (C : Collab) (msg : Message) (ht : 0 < msg.time) :
    hGet (GetHeader C msg) (str "X-Pm-Date") = C.FormatRFC1123Z msg.time ∧
    (goodDate (headerDate C (initialState msg).h) = false →
      hGet (GetHeader C msg) (str "Date") = C.FormatRFC1123Z msg.time) ∧
    (goodDate (headerDate C (initialState msg).h) = true →
      hGet (GetHeader C msg) (str "Date") = hGet (initialState msg).h (str "Date")) := by
  have hdp : hGet (setStdFields C msg (initialState msg)).h (str "Date") =
      hGet (initialState msg).h (str "Date") :=
    setStd_keep C msg (initialState msg) (str "Date") (by decide) (by decide) (by decide)
      (by decide) (by decide) (by decide)
  have hdv : dateView C msg (setStdFields C msg (initialState msg)) =
      headerDate C (initialState msg).h := dateView_eq C msg _ hdp
  have hDate : hGet (setDateFields C msg (setStdFields C msg (initialState msg))).h
      (str "Date") =
      (if goodDate (headerDate C (initialState msg).h) = true
       then hGet (initialState msg).h (str "Date") else C.FormatRFC1123Z msg.time) := by
    rw [setDate_date C msg _ ht, hdv, hdp]
  refine ⟨?_, ?_, ?_⟩
  · unfold GetHeader GetHeaderB
    rw [setConversation_keep _ _ _ (by decide) (by decide),
      setInternal_keep _ _ _ (by decide) (by decide) (by decide),
      setExternal_keep _ _ _ (by decide) (by decide)]
    exact setDate_xpmdate C msg _ ht
  · intro hg
    unfold GetHeader GetHeaderB
    rw [setConversation_keep _ _ _ (by decide) (by decide),
      setInternal_keep _ _ _ (by decide) (by decide) (by decide),
      setExternal_keep _ _ _ (by decide) (by decide), hDate, if_neg (by simp [hg])]
  · intro hg
    unfold GetHeader GetHeaderB
    rw [setConversation_keep _ _ _ (by decide) (by decide),
      setInternal_keep _ _ _ (by decide) (by decide) (by decide),
      setExternal_keep _ _ _ (by decide) (by decide), hDate, if_pos hg]

/-- Witness for C3 at two concrete Messages: one with a parseable non-zero
pre-existing `Date` (left unchanged), one with no `Date` at all (fixed to
the rendered timestamp). -/
theorem getHeader_dates_witness :
    (0 : Int) < msgDate.time ∧
    goodDate (headerDate CDate (initialState msgDate).h) = true ∧
    hGet (GetHeader CDate msgDate) (str "X-Pm-Date") = CDate.FormatRFC1123Z msgDate.time ∧
    hGet (GetHeader CDate msgDate) (str "Date") = hGet (initialState msgDate).h (str "Date") ∧
    goodDate (headerDate CDate (initialState msgNoDate).h) = false ∧
    hGet (GetHeader CDate msgNoDate) (str "Date") = CDate.FormatRFC1123Z msgNoDate.time :=
  ⟨by decide, by decide, (getHeader_dates CDate msgDate (by decide)).1,
    (getHeader_dates CDate msgDate (by decide)).2.2 (by decide),
    by decide, (getHeader_dates CDate msgNoDate (by decide)).2.1 (by decide)⟩
